import Mathlib

/-!
Shallow embedding of the OpenClaw bridge daemon (the daemon portion of
`bridge/client.js`, i.e. `bridge/daemon.js`): client registry, connection
manager, per-recipient queues, the router (`deliverEnvelope`, `flushQueue`),
the per-connection protocol handler, the HTTP authorization gate, hash
comparison (`safeCompareHash`), and config validation (`loadConfig`).

Modelling conventions:
 - JavaScript `Map` objects become association lists with first-match lookup;
   `Set` objects become duplicate-free lists in insertion order (insertion
   order is also JS iteration order).
 - JSON values (`JSON.parse` results, client-supplied message fields) become
   the inductive `Json`; JS `undefined` is `Option.none` at use sites.
 - Nondeterministic inputs of the environment (clock, `randomId`) are passed
   in as explicit arguments (`ts`, `genId`).
 - The SHA-256 digest from `node:crypto` is an opaque parameter
   `digest : String → List Nat` producing raw bytes; hex encoding and Node's
   truncating hex decoding (`Buffer.from(s, "hex")`) are modelled concretely.
 - Socket writes become explicit frame lists: frames written back to the
   connection at hand, and `(connId, frame)` pairs for deliveries to other
   connections.
-/

namespace Bridge

/-- JSON values as produced by `JSON.parse`. The daemon never inspects the
inside of an array or object it carries (payloads are opaque), so composite
values are identified by an opaque tag; only their truthiness (always true)
and their not being a string matter to the modelled code. -/
inductive Json where
  | null
  | bool (b : Bool)
  | num (n : Int)
  | str (s : String)
  | arr (tag : Nat)
  | obj (tag : Nat)
deriving Repr, DecidableEq

/-- JavaScript truthiness of a JSON value (`NaN` is not representable here;
`0`, `""`, `false`, `null` are falsy, arrays and objects are truthy). -/
def jsTruthy : Json → Bool
  | .null => false
  | .bool b => b
  | .num n => n != 0
  | .str s => s != ""
  | .arr _ => true
  | .obj _ => true

/-- A registered client after config load: `id`, `keySha256`, `canSendTo`. -/
structure ClientDef where
  id : String
  keySha256 : String
  canSendTo : List String
deriving Repr, DecidableEq

/-- The routed envelope built at ingress (daemon source: the `send` handler
and `routeAdminSend`). `from` and `to` are strings by construction; the
client-influenced fields keep their JSON type. -/
structure Envelope where
  id : Json
  «from» : String
  «to» : String
  type : Json
  payload : Json
  correlationId : Json
  ts : String
deriving Repr, DecidableEq

/-- Outbound frames the daemon writes to sockets (`sendJson` call sites). -/
inductive Frame where
  | authOk (clientId : String) (queued : Nat) (ts : String)
  | authFailed
  | pong (ts : String)
  | whoamiReply (clientId : String) (canSendTo : List String) (ts : String)
  | sent (id : Json) (deliveredTo : Nat) (queued : Bool) (ts : String)
  | message (envelope : Envelope)
  | error (code : String)
deriving Repr, DecidableEq

/-- First-match association-list lookup, modelling `Map.prototype.get`. -/
def lookupA {α : Type} : List (String × α) → String → Option α
  | [], _ => none
  | (k2, v) :: rest, k => if k2 = k then some v else lookupA rest k

/-- `Map.prototype.set`: replace in place if present, else append. -/
def setA {α : Type} : List (String × α) → String → α → List (String × α)
  | [], k, v => [(k, v)]
  | (k2, v2) :: rest, k, v =>
    if k2 = k then (k, v) :: rest else (k2, v2) :: setA rest k v

/-- `Map.prototype.delete`: drop the entry for the key. -/
def deleteA {α : Type} : List (String × α) → String → List (String × α)
  | [], _ => []
  | (k2, v2) :: rest, k =>
    if k2 = k then rest else (k2, v2) :: deleteA rest k

/-- Mutable daemon state: config limits, the immutable registry
(`clientsById`), `activeConnections` and `pendingQueues`. Connections are
identified by `Nat` tokens. -/
structure BridgeState where
  queueLimit : Nat
  maxMessageBytes : Nat
  clients : List ClientDef
  activeConnections : List (String × List Nat)
  pendingQueues : List (String × List Envelope)
deriving Repr, DecidableEq

/-- `clientsById.get(cid)`: ids are unique after validation, so first match
equals `Map` semantics. -/
def clientsById (st : BridgeState) (cid : String) : Option ClientDef :=
  st.clients.find? (fun c => c.id == cid)

/-- `getQueue(clientId)` (daemon source): the pending queue, `[]` when the
recipient has no entry yet. The JS version also inserts the empty queue into
the map; queue contents are unaffected, so the pure lookup suffices. -/
def getQueue (st : BridgeState) (cid : String) : List Envelope :=
  (lookupA st.pendingQueues cid).getD []

/-- The live connections registered for a client id. -/
def connsOf (st : BridgeState) (cid : String) : List Nat :=
  (lookupA st.activeConnections cid).getD []

/-- `canRoute(fromClientId, toClientId)` (daemon source): unknown sender
routes nowhere; a `"*"` entry allows everything; otherwise membership. -/
def canRoute (st : BridgeState) (fromClientId toClientId : String) : Bool :=
  match clientsById st fromClientId with
  | none => false
  | some sender =>
    if sender.canSendTo.contains "*" then true
    else sender.canSendTo.contains toClientId

/-- `registerConnection(clientId, connState)`: add to the per-client set
(sets do not duplicate; insertion order is kept). -/
def registerConnection (st : BridgeState) (clientId : String) (conn : Nat) :
    BridgeState :=
  let set := connsOf st clientId
  let set2 := if set.contains conn then set else set ++ [conn]
  { st with activeConnections := setA st.activeConnections clientId set2 }

/-- `unregisterConnection(clientId, connState)`: remove; prune empty sets. -/
def unregisterConnection (st : BridgeState) (clientId : String) (conn : Nat) :
    BridgeState :=
  match lookupA st.activeConnections clientId with
  | none => st
  | some set =>
    let set2 := set.filter (fun c => c != conn)
    if set2.isEmpty then
      { st with activeConnections := deleteA st.activeConnections clientId }
    else
      { st with activeConnections := setA st.activeConnections clientId set2 }

/-- The `{ deliveredTo, queued }` result of the router. -/
structure RouteResult where
  deliveredTo : Nat
  queued : Bool
deriving Repr, DecidableEq

/-- `deliverEnvelope(envelope)` (daemon source): fan out to every live
connection of the recipient, else enqueue with drop-oldest past
`queueLimit`. Returns the new state, the route result, and the `message`
frames written, as `(connId, frame)` pairs. -/
def deliverEnvelope (st : BridgeState) (envelope : Envelope) :
    BridgeState × RouteResult × List (Nat × Frame) :=
  let recipients := connsOf st envelope.«to»
  if recipients.isEmpty then
    let queue := getQueue st envelope.«to»
    let queue2 := queue ++ [envelope]
    let queue3 := if queue2.length > st.queueLimit then queue2.tail else queue2
    ({ st with pendingQueues := setA st.pendingQueues envelope.«to» queue3 },
     ⟨0, true⟩, [])
  else
    (st, ⟨recipients.length, false⟩,
     recipients.map (fun c => (c, Frame.message envelope)))

/-- `flushQueue(clientId, socket)` (daemon source): shift every queued
envelope out and write it as a `message` frame, in FIFO order. Returns the
new state, the delivered count, and the frames written to that socket. -/
def flushQueue (st : BridgeState) (clientId : String) :
    BridgeState × Nat × List Frame :=
  let queue := getQueue st clientId
  ({ st with pendingQueues := setA st.pendingQueues clientId [] },
   queue.length, queue.map Frame.message)

/-- Value of a hex digit, accepting both cases (Node hex decoding). -/
def hexDigitVal : Char → Option Nat
  | c =>
    if '0' ≤ c ∧ c ≤ '9' then some (c.toNat - '0'.toNat)
    else if 'a' ≤ c ∧ c ≤ 'f' then some (c.toNat - 'a'.toNat + 10)
    else if 'A' ≤ c ∧ c ≤ 'F' then some (c.toNat - 'A'.toNat + 10)
    else none

/-- `Buffer.from(s, "hex")` in Node: decode pairs of hex digits, stopping at
the first pair containing an invalid character and dropping a trailing odd
character; never throws. -/
def hexDecodeL : List Char → List Nat
  | c1 :: c2 :: rest =>
    match hexDigitVal c1, hexDigitVal c2 with
    | some hi, some lo => (16 * hi + lo) :: hexDecodeL rest
    | _, _ => []
  | _ => []

/-- Hex decoding of a string, as `Buffer.from(s, "hex")`. -/
def hexDecode (s : String) : List Nat :=
  hexDecodeL s.data

/-- Lowercase hex digit characters, digit `d` at index `d`. -/
def hexChars : List Char :=
  (List.range 16).map (fun d =>
    if d < 10 then Char.ofNat (d + '0'.toNat)
    else Char.ofNat (d - 10 + 'a'.toNat))

/-- Two lowercase hex digits of a byte (as `digest("hex")` prints it). -/
def byteToHex (b : Nat) : List Char :=
  [hexChars.getD (b / 16) '0', hexChars.getD (b % 16) '0']

/-- Lowercase hex encoding of a byte list, modelling
`createHash("sha256").update(x).digest("hex")` applied to raw digest
bytes. -/
def hexEncode (bs : List Nat) : String :=
  ⟨bs.flatMap byteToHex⟩

/-- `sha256(input)` (daemon source) with the digest primitive abstracted:
`digest` stands for SHA-256 producing 32 raw bytes. -/
def sha256 (digest : String → List Nat) (input : String) : String :=
  hexEncode (digest input)

/-- `safeCompareHash(plain, expectedHash)` (daemon source): hex-decode the
digest of `plain` and the stored hash, return false on length mismatch
(which also guards `crypto.timingSafeEqual` from throwing), else constant
time byte equality. `String(expectedHash || "")` collapses a falsy stored
hash to `""`, which hex-decodes to `[]`; `Option.getD ""` models that. -/
def safeCompareHash (digest : String → List Nat)
    (plain : String) (expectedHash : Option String) : Bool :=
  let actual := hexDecode (sha256 digest plain)
  let expected := hexDecode (expectedHash.getD "")
  if actual.length ≠ expected.length then false
  else actual == expected

/-- The fields of a `send` frame the daemon reads. A field the client left
out is the falsy `Json.null` (for `payload`, which is compared against
`undefined` by `===`, absence is `none`). -/
structure SendMsg where
  «to» : Json
  type : Json
  payload : Option Json
  id : Json
  correlationId : Json
deriving Repr, DecidableEq

/-- The `send` branch of the socket data handler (daemon source): validate
`to`, build the envelope with `from` fixed to the authenticated client id,
route it, and acknowledge with a `sent` frame. Returns the new state, the
frames written back to the sending connection, and the delivery writes to
other connections. `genId` is the `randomId("m")` drawn for a missing id and
`ts` the `nowIso()` timestamp. -/
def handleSend (st : BridgeState) (senderId : String) (m : SendMsg)
    (genId ts : String) : BridgeState × List Frame × List (Nat × Frame) :=
  match m.«to» with
  | Json.str toId =>
    if toId = "" then (st, [Frame.error "missing_to"], [])
    else if (clientsById st toId).isNone then
      (st, [Frame.error "unknown_target"], [])
    else if ¬canRoute st senderId toId then
      (st, [Frame.error "route_not_allowed"], [])
    else
      let envelope : Envelope :=
        { id := if jsTruthy m.id then m.id else Json.str genId
          «from» := senderId
          «to» := toId
          type := if jsTruthy m.type then m.type else Json.str "message"
          payload := m.payload.getD Json.null
          correlationId := if jsTruthy m.correlationId then m.correlationId
                           else Json.null
          ts := ts }
      let routed := deliverEnvelope st envelope
      (routed.1,
       [Frame.sent envelope.id routed.2.1.deliveredTo routed.2.1.queued ts],
       routed.2.2)
  | _ => (st, [Frame.error "missing_to"], [])

/-- Body fields of `POST /api/send` that `routeAdminSend` reads. -/
structure AdminSendBody where
  asClient : Json
  «to» : Json
  type : Json
  payload : Option Json
  id : Json
  correlationId : Json
deriving Repr, DecidableEq

/-- Result of `routeAdminSend`: an error object or the envelope plus route
result. -/
inductive AdminSendResult where
  | err (code : String)
  | ok (envelope : Envelope) (routed : RouteResult)
deriving Repr, DecidableEq

/-- `Map.prototype.has` with a JSON key: only string keys can match the
string-keyed registry. -/
def hasClientJson (st : BridgeState) (v : Json) : Bool :=
  match v with
  | Json.str s => (clientsById st s).isSome
  | _ => false

/-- `routeAdminSend(body)` (daemon source): require truthy `asClient` and
`to`, require both registered, require the route allowed, then build the
envelope with `from = asClient` and route it. Also returns the delivery
writes `deliverEnvelope` performed. -/
def routeAdminSend (st : BridgeState) (body : AdminSendBody)
    (genId ts : String) :
    BridgeState × AdminSendResult × List (Nat × Frame) :=
  if ¬jsTruthy body.asClient ∨ ¬jsTruthy body.«to» then
    (st, AdminSendResult.err "asClient_and_to_required", [])
  else if ¬hasClientJson st body.asClient ∨ ¬hasClientJson st body.«to» then
    (st, AdminSendResult.err "unknown_client", [])
  else
    match body.asClient, body.«to» with
    | Json.str asClient, Json.str toId =>
      if ¬canRoute st asClient toId then
        (st, AdminSendResult.err "route_not_allowed", [])
      else
        let envelope : Envelope :=
          { id := if jsTruthy body.id then body.id else Json.str genId
            «from» := asClient
            «to» := toId
            type := if jsTruthy body.type then body.type else Json.str "message"
            payload := body.payload.getD Json.null
            correlationId := if jsTruthy body.correlationId then
                               body.correlationId
                             else Json.null
            ts := ts }
        let routed := deliverEnvelope st envelope
        (routed.1, AdminSendResult.ok envelope routed.2.1, routed.2.2)
    | _, _ => (st, AdminSendResult.err "unknown_client", [])

/-- A parsed inbound frame, keyed by its `action` string. `other` covers
every action the dispatcher does not recognize (including a missing or
non-string `action`). The `apiKey` field is the `String(...)`-coerced key
(`sha256` stringifies its input). -/
inductive Msg where
  | auth (clientId : Json) (apiKey : String)
  | ping
  | send (m : SendMsg)
  | whoami
  | other
deriving Repr, DecidableEq

/-- One newline-delimited frame after `trim()`: its UTF-8 byte length
(`Buffer.byteLength(line, "utf8")`) and its `parseJsonOrNull` result;
`none` also covers a parse result that is falsy (the `!msg` check). Only
nonempty trimmed lines are modelled; empty ones are skipped by the loop
without any effect. -/
structure Line where
  bytes : Nat
  msg : Option Msg
deriving Repr, DecidableEq

/-- Per-connection state the data handler mutates: `authed` and the bound
`clientId` (set on successful auth). The parse buffer is handled at the
data-event level. -/
structure ConnState where
  authed : Bool
  clientId : Option String
deriving Repr, DecidableEq

/-- Effect of processing input on one connection: updated daemon and
connection state, frames written back to this connection, delivery writes
to other connections, and whether this connection was destroyed. -/
structure StepResult where
  st : BridgeState
  cs : ConnState
  toSelf : List Frame
  toOthers : List (Nat × Frame)
  destroyed : Bool
deriving Repr, DecidableEq

/-- `clientsById.get(msg.clientId)` with a JSON key: only a string can match
the string-keyed registry. -/
def clientJsonLookup (st : BridgeState) (v : Json) : Option ClientDef :=
  match v with
  | Json.str s => clientsById st s
  | _ => none

/-- The action dispatch of the socket data handler (daemon source), after
the size and parse checks, for a successfully parsed frame. On successful
auth: register, send `auth_ok` carrying the queue depth, then flush the
queue to this socket. In the authed state: `ping`, `send`, `whoami`, else
`unknown_action`. -/
def handleParsed (digest : String → List Nat) (st : BridgeState) (conn : Nat)
    (cs : ConnState) (msg : Msg) (genId ts : String) : StepResult :=
  if ¬cs.authed then
    match msg with
    | Msg.auth clientIdJ apiKey =>
      match clientJsonLookup st clientIdJ with
      | none => ⟨st, cs, [Frame.authFailed], [], true⟩
      | some clientDef =>
        if ¬safeCompareHash digest apiKey (some clientDef.keySha256) then
          ⟨st, cs, [Frame.authFailed], [], true⟩
        else
          let st1 := registerConnection st clientDef.id conn
          let queuedCount := (getQueue st1 clientDef.id).length
          let fl := flushQueue st1 clientDef.id
          ⟨fl.1, ⟨true, some clientDef.id⟩,
           Frame.authOk clientDef.id queuedCount ts :: fl.2.2, [], false⟩
    | _ => ⟨st, cs, [Frame.error "auth_required"], [], false⟩
  else
    match msg with
    | Msg.ping => ⟨st, cs, [Frame.pong ts], [], false⟩
    | Msg.send m =>
      let r := handleSend st (cs.clientId.getD "") m genId ts
      ⟨r.1, cs, r.2.1, r.2.2, false⟩
    | Msg.whoami =>
      ⟨st, cs,
       [Frame.whoamiReply (cs.clientId.getD "")
         (((clientsById st (cs.clientId.getD "")).map ClientDef.canSendTo).getD [])
         ts],
       [], false⟩
    | _ => ⟨st, cs, [Frame.error "unknown_action"], [], false⟩

/-- Processing of one extracted line (daemon source): reject a line longer
than `maxMessageBytes` with `message_too_large` and `continue`; reject an
unparseable (or falsy) parse with `invalid_json`; otherwise dispatch. -/
def handleLine (digest : String → List Nat) (st : BridgeState) (conn : Nat)
    (cs : ConnState) (line : Line) (genId ts : String) : StepResult :=
  if line.bytes > st.maxMessageBytes then
    ⟨st, cs, [Frame.error "message_too_large"], [], false⟩
  else
    match line.msg with
    | none => ⟨st, cs, [Frame.error "invalid_json"], [], false⟩
    | some msg => handleParsed digest st conn cs msg genId ts

/-- The line-extraction loop of the data handler: process buffered lines in
order, stopping (a `return` in the source) once the connection is
destroyed. `gen k` supplies the fresh id for the frame at index `k`. -/
def handleLines (digest : String → List Nat) (st : BridgeState) (conn : Nat)
    (cs : ConnState) (gen : Nat → String) (k : Nat) (ts : String) :
    List Line → StepResult
  | [] => ⟨st, cs, [], [], false⟩
  | line :: rest =>
    let r := handleLine digest st conn cs line (gen k) ts
    if r.destroyed then r
    else
      let r2 := handleLines digest r.st conn r.cs gen (k + 1) ts rest
      ⟨r2.st, r2.cs, r.toSelf ++ r2.toSelf, r.toOthers ++ r2.toOthers,
       r2.destroyed⟩

/-- One `data` event (daemon source): after appending the chunk, if the
accumulated buffer exceeds twice `maxMessageBytes`, write `buffer_exceeded`
and destroy the socket; otherwise run the line loop. `bufferBytes` is the
UTF-8 size of the accumulated buffer. -/
def dataEvent (digest : String → List Nat) (st : BridgeState) (conn : Nat)
    (cs : ConnState) (bufferBytes : Nat) (lines : List Line)
    (gen : Nat → String) (ts : String) : StepResult :=
  if bufferBytes > st.maxMessageBytes * 2 then
    ⟨st, cs, [Frame.error "buffer_exceeded"], [], true⟩
  else
    handleLines digest st conn cs gen 0 ts lines

/-- Router-level operations driving the queue and connection state:
a validated envelope handed to the router, a successful authentication of a
connection (register, `auth_ok`, flush - the auth-success branch of the
data handler), and a disconnect. -/
inductive Op where
  | send (e : Envelope)
  | connect (clientId : String) (conn : Nat) (ts : String)
  | disconnect (clientId : String) (conn : Nat)
deriving Repr, DecidableEq

/-- One router-level operation: resulting state and the `(connId, frame)`
writes it performs. -/
def runOpW (st : BridgeState) : Op → BridgeState × List (Nat × Frame)
  | Op.send e =>
    let r := deliverEnvelope st e
    (r.1, r.2.2)
  | Op.connect cid conn ts =>
    let st1 := registerConnection st cid conn
    let queuedCount := (getQueue st1 cid).length
    let fl := flushQueue st1 cid
    (fl.1, (Frame.authOk cid queuedCount ts :: fl.2.2).map (fun f => (conn, f)))
  | Op.disconnect cid conn => (unregisterConnection st cid conn, [])

/-- Run a sequence of operations, collecting all writes in order. -/
def runOpsW : BridgeState → List Op → BridgeState × List (Nat × Frame)
  | st, [] => (st, [])
  | st, op :: rest =>
    let r := runOpW st op
    let r2 := runOpsW r.1 rest
    (r2.1, r.2 ++ r2.2)

/-- The frames a given connection receives, in write order. -/
def writesTo (conn : Nat) (ws : List (Nat × Frame)) : List Frame :=
  (ws.filter (fun p => p.1 == conn)).map Prod.snd

/-- Daemon state right after startup: config limits and registry, no live
connections, no queues. -/
def initState (queueLimit maxMessageBytes : Nat) (clients : List ClientDef) :
    BridgeState :=
  ⟨queueLimit, maxMessageBytes, clients, [], []⟩

/-- Prefix test on character lists; `String.startsWith` of the library is
byte-position based and does not reduce in the kernel, so the model uses
the plain recursion, which agrees with it on all strings. -/
def strStartsWithL : List Char → List Char → Bool
  | _, [] => true
  | [], _ :: _ => false
  | c :: s2, d :: p2 => if c = d then strStartsWithL s2 p2 else false

/-- `url.pathname.startsWith(p)`. -/
def startsWithS (s p : String) : Bool :=
  strStartsWithL s.data p.data

/-- JS whitespace for `trim()` (the characters relevant here). -/
def isWhitespaceC (c : Char) : Bool :=
  c = ' ' || c = '\t' || c = '\n' || c = '\r'

/-- `String.prototype.trim()`, on the character list (the library `trim`
is byte-position based and does not reduce in the kernel). -/
def trimS (s : String) : String :=
  ⟨((s.data.dropWhile isWhitespaceC).reverse.dropWhile
      isWhitespaceC).reverse⟩

/-- The parts of an HTTP request the routing cascade reads: the parsed
`url.pathname`, the method, the `x-bridge-token` header (an array-valued
header fails the gate exactly like a missing one, so both are `none`), and
the `id` query parameter used by the avatar endpoint. -/
structure HttpReq where
  pathname : String
  method : String
  token : Option String
  idParam : Option String
deriving Repr, DecidableEq

/-- Outcome of the HTTP routing cascade, at the granularity the claims
need: which branch answered. Handlers behind the authorization gate are
summarized by `apiHandled`; the avatar file serving is summarized by
`avatar`. -/
inductive HttpResp where
  | health
  | panelHtml
  | panelAsset (pathname : String)
  | noContent
  | badRequest (code : String)
  | unauthorized
  | notFound (code : String)
  | avatar (agentId : String)
  | apiHandled (pathname : String)
deriving Repr, DecidableEq

/-- `isAuthorizedHttp(req)` (daemon source): false when no (or a falsy)
`adminTokenSha256` is configured, false when the header is missing or an
array, else `safeCompareHash(token, adminTokenSha256)`. -/
def isAuthorizedHttp (digest : String → List Nat)
    (adminTokenSha256 : Option String) (token : Option String) : Bool :=
  match adminTokenSha256 with
  | none => false
  | some h =>
    if h = "" then false
    else
      match token with
      | none => false
      | some t => safeCompareHash digest t (some h)

/-- The HTTP handler's routing cascade (daemon source), in source order:
`/health`, `/`, the three panel assets, `/favicon.ico`, then the avatar
endpoint, then the `not_found` guard for non-`/api/` paths, then the
authorization gate, then the authorized API dispatch (abstracted). Note the
avatar endpoint sits before the authorization gate. -/
def httpRoute (digest : String → List Nat) (adminTokenSha256 : Option String)
    (req : HttpReq) : HttpResp :=
  if req.pathname = "/health" then HttpResp.health
  else if req.pathname = "/" then HttpResp.panelHtml
  else if req.pathname = "/panel/mission-control.css" then
    HttpResp.panelAsset req.pathname
  else if req.pathname = "/panel/mission-control.js" then
    HttpResp.panelAsset req.pathname
  else if req.pathname = "/panel/voice.js" then
    HttpResp.panelAsset req.pathname
  else if req.pathname = "/favicon.ico" then HttpResp.noContent
  else if req.pathname = "/api/mission-control/avatar" then
    let agentId := trimS (req.idParam.getD "")
    if agentId = "" then HttpResp.badRequest "id_required"
    else HttpResp.avatar agentId
  else if ¬startsWithS req.pathname "/api/" then HttpResp.notFound "not_found"
  else if ¬isAuthorizedHttp digest adminTokenSha256 req.token then
    HttpResp.unauthorized
  else HttpResp.apiHandled req.pathname

/-- A client entry as found in the parsed config JSON. A missing or falsy
`id` or `keySha256` is modelled by `""` (the `!client.id` check conflates
them); `canSendTo = none` means the field is not an array (a missing field
also fails `Array.isArray` and is `none`). -/
structure RawClient where
  id : String
  keySha256 : String
  canSendTo : Option (List String)
deriving Repr, DecidableEq

/-- The parsed config document, at the granularity `loadConfig` validates:
`clients = none` means the field holds a non-array value; a document without
the field gets the default `[]`, i.e. `some []`. -/
structure RawConfig where
  clients : Option (List RawClient)
deriving Repr, DecidableEq

/-- Whether an `Except` is a success. -/
def isOkE {α : Type} : Except String α → Bool
  | Except.ok _ => true
  | Except.error _ => false

/-- The per-client validation loop of `loadConfig` (daemon source): each
client requires a truthy `id` and `keySha256`, ids must not repeat (`seen`),
and a non-array `canSendTo` is replaced by `[]` rather than rejected. -/
def validateClients : List RawClient → List String →
    Except String (List ClientDef)
  | [], _ => Except.ok []
  | c :: rest, seen =>
    if c.id = "" ∨ c.keySha256 = "" then
      Except.error "each client requires id and keySha256"
    else if seen.contains c.id then
      Except.error "duplicate client id"
    else
      match validateClients rest (c.id :: seen) with
      | Except.error e => Except.error e
      | Except.ok cs => Except.ok (⟨c.id, c.keySha256, c.canSendTo.getD []⟩ :: cs)

/-- `loadConfig(configPath)` (daemon source), with the file system and JSON
parser as inputs: a missing file throws, an unparseable file throws
(`JSON.parse`), a missing-or-non-array or empty `clients` throws, then the
per-client loop validates. Returns the validated registry (the limit and
path defaults are orthogonal to validation). -/
def loadConfig (configExists : Bool) (parsed : Option RawConfig) :
    Except String (List ClientDef) :=
  if ¬configExists then Except.error "Config not found"
  else
    match parsed with
    | none => Except.error "JSON.parse failed"
    | some rc =>
      match rc.clients with
      | none => Except.error "config.clients must contain at least one client"
      | some [] => Except.error "config.clients must contain at least one client"
      | some cs => validateClients cs []

theorem lookupA_setA_self {α : Type} (m : List (String × α)) (k : String)
    (v : α) : lookupA (setA m k v) k = some v := by
  induction m with
  | nil => simp [setA, lookupA]
  | cons hd tl ih =>
    by_cases h : hd.1 = k
    · simp [setA, lookupA, h]
    · simp [setA, lookupA, h, ih]

theorem lookupA_setA_ne {α : Type} (m : List (String × α)) (k k2 : String)
    (v : α) (h : k2 ≠ k) : lookupA (setA m k v) k2 = lookupA m k2 := by
  induction m with
  | nil => simp [setA, lookupA, Ne.symm h]
  | cons hd tl ih =>
    obtain ⟨k1, v1⟩ := hd
    by_cases hh : k1 = k
    · subst hh
      simp [setA, lookupA, Ne.symm h]
    · by_cases h2 : k1 = k2
      · simp [setA, lookupA, hh, h2, h]
      · simp [setA, lookupA, hh, h2, ih]

/-- The bounded enqueue discipline: append, then drop the oldest element
when the queue limit is exceeded. -/
def boundedEnqueue (queue : List Envelope) (e : Envelope) (limit : Nat) :
    List Envelope :=
  let queue2 := queue ++ [e]
  if queue2.length > limit then queue2.tail else queue2

/-- C1: for every validated envelope given to the router, if the recipient
has at least one live connection then a `message` frame is written to every
one of them and the reported result is `deliveredTo` = the number of those
connections with `queued = false`; otherwise the envelope is enqueued under
the bounded discipline and the result is `deliveredTo = 0`, `queued = true`.
The combination `deliveredTo = 0` with `queued = false` is never produced. -/
theorem deliverEnvelope_delivers_or_queues (st : BridgeState) (e : Envelope) :
    (connsOf st e.«to» ≠ [] →
      (deliverEnvelope st e).2.1
        = ⟨(connsOf st e.«to»).length, false⟩ ∧
      (deliverEnvelope st e).2.2
        = (connsOf st e.«to»).map (fun c => (c, Frame.message e)) ∧
      1 ≤ (deliverEnvelope st e).2.1.deliveredTo) ∧
    (connsOf st e.«to» = [] →
      (deliverEnvelope st e).2.1 = ⟨0, true⟩ ∧
      (deliverEnvelope st e).2.2 = [] ∧
      getQueue (deliverEnvelope st e).1 e.«to»
        = boundedEnqueue (getQueue st e.«to») e st.queueLimit) ∧
    ¬((deliverEnvelope st e).2.1.deliveredTo = 0 ∧
      (deliverEnvelope st e).2.1.queued = false) := by
  by_cases h : connsOf st e.«to» = []
  · have hempty : (connsOf st e.«to»).isEmpty = true := by
      simp [List.isEmpty_iff, h]
    refine ⟨fun hne => absurd h hne, fun _ => ⟨?_, ?_, ?_⟩, ?_⟩
    · simp [deliverEnvelope, hempty]
    · simp [deliverEnvelope, hempty]
    · simp [deliverEnvelope, hempty, getQueue, boundedEnqueue,
        lookupA_setA_self]
    · simp [deliverEnvelope, hempty]
  · have hne : (connsOf st e.«to»).isEmpty = false := by
      simp [List.isEmpty_iff, h]
    refine ⟨fun _ => ⟨?_, ?_, ?_⟩, fun habs => absurd habs h, ?_⟩
    · simp [deliverEnvelope, hne]
    · simp [deliverEnvelope, hne]
    · simpa [deliverEnvelope, hne] using List.length_pos.mpr h
    · simpa [deliverEnvelope, hne, List.length_eq_zero] using h

/-- Sample registry used by concrete witnesses. -/
def sampleRegistry : List ClientDef :=
  [⟨"agent-client", "aa11", ["openclaw-server"]⟩,
   ⟨"openclaw-server", "bb22", ["*"]⟩]

/-- Sample state with one live connection (id 0) for `openclaw-server`. -/
def sampleStateLive : BridgeState :=
  ⟨2, 100, sampleRegistry, [("openclaw-server", [0])], []⟩

/-- Sample validated envelope from `agent-client` to `openclaw-server`. -/
def sampleEnvelope : Envelope :=
  ⟨Json.str "m1", "agent-client", "openclaw-server", Json.str "command",
   Json.null, Json.null, "t1"⟩

/-- Witness for C1: with exactly one live recipient connection the router
reports `deliveredTo = 1`, `queued = false` and writes the one frame. -/
theorem deliverEnvelope_delivers_or_queues_witness :
    (deliverEnvelope sampleStateLive sampleEnvelope).2.1
      = ⟨1, false⟩ ∧
    (deliverEnvelope sampleStateLive sampleEnvelope).2.2
      = [(0, Frame.message sampleEnvelope)] := by
  have h :=
    (deliverEnvelope_delivers_or_queues sampleStateLive sampleEnvelope).1
      (by decide)
  exact ⟨h.1.trans (by decide), h.2.1.trans (by decide)⟩

theorem getQueue_registerConnection (st : BridgeState) (cid : String)
    (conn : Nat) (c : String) :
    getQueue (registerConnection st cid conn) c = getQueue st c := rfl

theorem getQueue_unregisterConnection (st : BridgeState) (cid : String)
    (conn : Nat) (c : String) :
    getQueue (unregisterConnection st cid conn) c = getQueue st c := by
  simp only [unregisterConnection]
  split
  · rfl
  · split <;> rfl

theorem queueLimit_unregisterConnection (st : BridgeState) (cid : String)
    (conn : Nat) :
    (unregisterConnection st cid conn).queueLimit = st.queueLimit := by
  simp only [unregisterConnection]
  split
  · rfl
  · split <;> rfl

theorem queueLimit_deliverEnvelope (st : BridgeState) (e : Envelope) :
    (deliverEnvelope st e).1.queueLimit = st.queueLimit := by
  simp only [deliverEnvelope]
  split <;> rfl

theorem queueLimit_flushQueue (st : BridgeState) (cid : String) :
    (flushQueue st cid).1.queueLimit = st.queueLimit := rfl

theorem queueLimit_runOpW (st : BridgeState) (op : Op) :
    (runOpW st op).1.queueLimit = st.queueLimit := by
  cases op with
  | send e => exact queueLimit_deliverEnvelope st e
  | connect cid conn ts => rfl
  | disconnect cid conn => exact queueLimit_unregisterConnection st cid conn

/-- All pending queues respect the configured limit. -/
def queuesBounded (st : BridgeState) : Prop :=
  ∀ cid, (getQueue st cid).length ≤ st.queueLimit

theorem queuesBounded_deliverEnvelope (st : BridgeState) (e : Envelope)
    (hin : queuesBounded st) : queuesBounded (deliverEnvelope st e).1 := by
  intro cid
  rw [queueLimit_deliverEnvelope]
  by_cases h : (connsOf st e.«to»).isEmpty = true
  · by_cases hc : cid = e.«to»
    · subst hc
      simp only [deliverEnvelope, h, if_pos, getQueue, lookupA_setA_self,
        Option.getD_some]
      split
      · simpa using hin e.«to»
      · next hgt =>
        have := hin e.«to»
        simp only [List.length_append, List.length_singleton] at hgt ⊢
        omega
    · simp only [deliverEnvelope, h, if_pos, getQueue,
        lookupA_setA_ne _ _ _ _ hc]
      exact hin cid
  · simp only [deliverEnvelope, Bool.not_eq_true] at h ⊢
    simp only [h, Bool.false_eq_true, if_false]
    exact hin cid

theorem queuesBounded_flushQueue (st : BridgeState) (c : String)
    (hin : queuesBounded st) : queuesBounded (flushQueue st c).1 := by
  intro cid
  rw [queueLimit_flushQueue]
  by_cases hc : cid = c
  · subst hc
    simp [flushQueue, getQueue, lookupA_setA_self]
  · simp only [flushQueue, getQueue, lookupA_setA_ne _ _ _ _ hc]
    exact hin cid

theorem queuesBounded_runOpW (st : BridgeState) (op : Op)
    (hin : queuesBounded st) : queuesBounded (runOpW st op).1 := by
  cases op with
  | send e => exact queuesBounded_deliverEnvelope st e hin
  | connect cid conn ts =>
    refine queuesBounded_flushQueue _ _ ?_
    intro c
    rw [getQueue_registerConnection]
    exact hin c
  | disconnect cid conn =>
    intro c
    show (getQueue (unregisterConnection st cid conn) c).length
      ≤ (unregisterConnection st cid conn).queueLimit
    rw [getQueue_unregisterConnection, queueLimit_unregisterConnection]
    exact hin c

theorem queueLimit_runOpsW (ops : List Op) (st : BridgeState) :
    (runOpsW st ops).1.queueLimit = st.queueLimit := by
  induction ops generalizing st with
  | nil => rfl
  | cons op rest ih =>
    show (runOpsW (runOpW st op).1 rest).1.queueLimit = _
    rw [ih, queueLimit_runOpW]

theorem queuesBounded_runOpsW (ops : List Op) (st : BridgeState)
    (hin : queuesBounded st) : queuesBounded (runOpsW st ops).1 := by
  induction ops generalizing st with
  | nil => exact hin
  | cons op rest ih =>
    show queuesBounded (runOpsW (runOpW st op).1 rest).1
    exact ih _ (queuesBounded_runOpW st op hin)

/-- Envelope number `n` of the C2 overflow scenario, addressed to the
offline `openclaw-server`. -/
def qe (n : Nat) : Envelope :=
  ⟨Json.num n, "agent-client", "openclaw-server", Json.str "message",
   Json.null, Json.null, "t"⟩

/-- The C2 overflow scenario: queue limit 3, five envelopes sent to the
offline recipient, then the recipient authenticates on connection 7. -/
def overflowOps : List Op :=
  [Op.send (qe 1), Op.send (qe 2), Op.send (qe 3), Op.send (qe 4),
   Op.send (qe 5), Op.connect "openclaw-server" 7 "T"]

/-- C2: starting from startup state, after any sequence of router
operations every recipient queue is at most the configured limit; and in
the concrete scenario with limit 3 and five envelopes to an offline
recipient, the recipient's drain on auth yields exactly the last three
envelopes, in send order. -/
theorem queue_bounded_and_drop_oldest :
    (∀ (queueLimit maxMessageBytes : Nat) (clients : List ClientDef)
       (ops : List Op) (cid : String),
       (getQueue (runOpsW (initState queueLimit maxMessageBytes clients)
           ops).1 cid).length ≤ queueLimit) ∧
    writesTo 7 (runOpsW (initState 3 65536 sampleRegistry) overflowOps).2
      = [Frame.authOk "openclaw-server" 3 "T", Frame.message (qe 3),
         Frame.message (qe 4), Frame.message (qe 5)] := by
  constructor
  · intro queueLimit maxMessageBytes clients ops cid
    have hinit : queuesBounded (initState queueLimit maxMessageBytes clients) := by
      intro c
      simp [initState, getQueue, lookupA]
    have hb := queuesBounded_runOpsW ops _ hinit cid
    rwa [queueLimit_runOpsW] at hb
  · decide

/-- The `send` handler acknowledged the frame with a `sent` ack, i.e. an
envelope was created and handed to the router. -/
def routesEnvelope (r : BridgeState × List Frame × List (Nat × Frame)) : Prop :=
  ∃ idj d q ts2, r.2.1 = [Frame.sent idj d q ts2]

theorem canRoute_of_sender (st : BridgeState) (senderId : String)
    (sdef : ClientDef) (toId : String)
    (hs : clientsById st senderId = some sdef) :
    canRoute st senderId toId
      = (sdef.canSendTo.contains "*" || sdef.canSendTo.contains toId) := by
  simp only [canRoute, hs]
  split <;> simp_all

/-- C3: on an authenticated connection a `send` frame is routed iff `to` is
a non-empty string naming a registered client that the sender's allowlist
(or its wildcard) covers; each failure yields exactly one `error` frame with
the matching code (`missing_to`, `unknown_target`, `route_not_allowed`),
leaves the state unchanged and delivers nothing; a wildcard permits every
registered target, the sender itself included. -/
theorem send_validation_and_error_codes (st : BridgeState) (senderId : String)
    (sdef : ClientDef) (m : SendMsg) (genId ts : String)
    (hs : clientsById st senderId = some sdef) :
    (routesEnvelope (handleSend st senderId m genId ts) ↔
      (∃ s, m.«to» = Json.str s ∧ s ≠ "" ∧ (clientsById st s).isSome = true ∧
        (sdef.canSendTo.contains "*" = true ∨
         sdef.canSendTo.contains s = true))) ∧
    ((¬∃ s, m.«to» = Json.str s ∧ s ≠ "") →
      handleSend st senderId m genId ts
        = (st, [Frame.error "missing_to"], [])) ∧
    (∀ s, m.«to» = Json.str s → s ≠ "" → clientsById st s = none →
      handleSend st senderId m genId ts
        = (st, [Frame.error "unknown_target"], [])) ∧
    (∀ s, m.«to» = Json.str s → s ≠ "" → (clientsById st s).isSome = true →
      canRoute st senderId s = false →
      handleSend st senderId m genId ts
        = (st, [Frame.error "route_not_allowed"], [])) ∧
    (sdef.canSendTo.contains "*" = true →
      ∀ s, (clientsById st s).isSome = true → canRoute st senderId s = true) := by
  refine ⟨?_, ?_, ?_, ?_, ?_⟩
  · cases hto : m.«to» with
    | str s =>
      by_cases hse : s = ""
      · subst hse
        constructor
        · intro hr
          exfalso
          obtain ⟨idj, d, q, ts2, habs⟩ := hr
          simp [handleSend, hto] at habs
        · rintro ⟨s2, hs2, hne, -⟩
          simp only [Json.str.injEq] at hs2
          subst hs2
          exact absurd rfl hne
      · by_cases hlk : (clientsById st s).isSome = true
        · by_cases hcan : canRoute st senderId s = true
          · constructor
            · intro _
              refine ⟨s, rfl, hse, hlk, ?_⟩
              rw [canRoute_of_sender st senderId sdef s hs] at hcan
              simpa [Bool.or_eq_true] using hcan
            · intro _
              have hnn : ¬(clientsById st s).isNone = true := by
                simp [Option.isNone_iff_eq_none]
                intro hn
                rw [hn] at hlk
                simp at hlk
              simp only [routesEnvelope, handleSend, hto]
              rw [if_neg hse, if_neg hnn, if_neg (by simp [hcan])]
              exact ⟨_, _, _, _, rfl⟩
          · constructor
            · intro hr
              exfalso
              obtain ⟨idj, d, q, ts2, habs⟩ := hr
              have hnn : ¬(clientsById st s).isNone = true := by
                simp [Option.isNone_iff_eq_none]
                intro hn
                rw [hn] at hlk
                simp at hlk
              simp only [handleSend, hto] at habs
              rw [if_neg hse, if_neg hnn,
                if_pos (by simp [Bool.not_eq_true] at hcan ⊢; exact hcan)]
                at habs
              cases habs
            · rintro ⟨s2, hs2, -, -, hor⟩
              simp only [Json.str.injEq] at hs2
              subst hs2
              exfalso
              apply hcan
              rw [canRoute_of_sender st senderId sdef s hs, Bool.or_eq_true]
              exact hor
        · constructor
          · intro hr
            exfalso
            obtain ⟨idj, d, q, ts2, habs⟩ := hr
            have hnn : (clientsById st s).isNone = true := by
              have := Option.not_isSome_iff_eq_none.mp hlk
              simp [this]
            simp only [handleSend, hto] at habs
            rw [if_neg hse, if_pos hnn] at habs
            cases habs
          · rintro ⟨s2, hs2, -, hsome, -⟩
            simp only [Json.str.injEq] at hs2
            subst hs2
            exact absurd hsome hlk
    | null =>
      simp [routesEnvelope, handleSend, hto]
    | bool b =>
      simp [routesEnvelope, handleSend, hto]
    | num n =>
      simp [routesEnvelope, handleSend, hto]
    | arr t =>
      simp [routesEnvelope, handleSend, hto]
    | obj t =>
      simp [routesEnvelope, handleSend, hto]
  · intro hno
    cases hto : m.«to» with
    | str s =>
      have hse : s = "" := by
        by_contra hne
        exact hno ⟨s, hto, hne⟩
      subst hse
      simp [handleSend, hto]
    | null => simp [handleSend, hto]
    | bool b => simp [handleSend, hto]
    | num n => simp [handleSend, hto]
    | arr t => simp [handleSend, hto]
    | obj t => simp [handleSend, hto]
  · intro s hto hse hnone
    simp only [handleSend, hto]
    rw [if_neg hse, if_pos (by simp [hnone])]
  · intro s hto hse hsome hcan
    have hnn : ¬(clientsById st s).isNone = true := by
      simp [Option.isNone_iff_eq_none]
      intro hn
      rw [hn] at hsome
      simp at hsome
    simp only [handleSend, hto]
    rw [if_neg hse, if_neg hnn, if_pos (by simp [hcan])]
  · intro hw s _
    rw [canRoute_of_sender st senderId sdef s hs, hw]
    simp

/-- Sample state with the sample registry and no live connections. -/
def sampleStateOffline : BridgeState :=
  ⟨3, 100, sampleRegistry, [], []⟩

/-- Witness for C3: a send to an unregistered target id is answered with
exactly one `unknown_target` error, no state change and no delivery. -/
theorem send_validation_witness :
    handleSend sampleStateOffline "agent-client"
        ⟨Json.str "nobody", Json.null, none, Json.null, Json.null⟩ "g1" "t2"
      = (sampleStateOffline, [Frame.error "unknown_target"], []) := by
  have h := send_validation_and_error_codes sampleStateOffline "agent-client"
    ⟨"agent-client", "aa11", ["openclaw-server"]⟩
    ⟨Json.str "nobody", Json.null, none, Json.null, Json.null⟩ "g1" "t2"
    (by decide)
  exact h.2.2.1 "nobody" rfl (by decide) (by decide)

theorem deliverEnvelope_writes_mem (st : BridgeState) (e : Envelope)
    (w : Nat × Frame) (hw : w ∈ (deliverEnvelope st e).2.2) :
    w.2 = Frame.message e := by
  by_cases h : (connsOf st e.«to»).isEmpty = true
  · simp [deliverEnvelope, h] at hw
  · simp only [deliverEnvelope, h, Bool.false_eq_true, if_false,
      List.mem_map] at hw
    obtain ⟨c, -, hc⟩ := hw
    rw [← hc]

theorem deliverEnvelope_queue_mem (st : BridgeState) (e : Envelope)
    (c : String) (e2 : Envelope)
    (hm : e2 ∈ getQueue (deliverEnvelope st e).1 c) :
    e2 ∈ getQueue st c ∨ e2 = e := by
  by_cases h : (connsOf st e.«to»).isEmpty = true
  · by_cases hc : c = e.«to»
    · subst hc
      simp only [deliverEnvelope, h, if_pos, getQueue, lookupA_setA_self,
        Option.getD_some] at hm
      have hsub : e2 ∈ getQueue st e.«to» ++ [e] := by
        split at hm
        · exact List.mem_of_mem_tail hm
        · exact hm
      rcases List.mem_append.mp hsub with h1 | h1
      · exact Or.inl h1
      · exact Or.inr (List.mem_singleton.mp h1)
    · simp only [deliverEnvelope, h, if_pos, getQueue,
        lookupA_setA_ne _ _ _ _ hc] at hm
      exact Or.inl hm
  · simp only [deliverEnvelope, h, Bool.false_eq_true, if_false] at hm
    exact Or.inl hm

/-- Every `handleSend` outcome is either a pure error reply or a routed
envelope whose `from` is the authenticated sender id. -/
theorem handleSend_shape (st : BridgeState) (senderId : String) (m : SendMsg)
    (genId ts : String) :
    (∃ c, c ∈ ["missing_to", "unknown_target", "route_not_allowed"] ∧
      handleSend st senderId m genId ts = (st, [Frame.error c], [])) ∨
    (∃ e, e.«from» = senderId ∧
      handleSend st senderId m genId ts
        = ((deliverEnvelope st e).1,
           [Frame.sent e.id (deliverEnvelope st e).2.1.deliveredTo
             (deliverEnvelope st e).2.1.queued ts],
           (deliverEnvelope st e).2.2)) := by
  cases hto : m.«to» with
  | str s =>
    by_cases hse : s = ""
    · exact Or.inl ⟨"missing_to", by simp,
        by subst hse; simp [handleSend, hto]⟩
    · by_cases hlk : (clientsById st s).isNone = true
      · refine Or.inl ⟨"unknown_target", by simp, ?_⟩
        simp only [handleSend, hto]
        rw [if_neg hse, if_pos hlk]
      · by_cases hcan : canRoute st senderId s = true
        · refine Or.inr ⟨⟨if jsTruthy m.id then m.id else Json.str genId,
            senderId, s,
            if jsTruthy m.type then m.type else Json.str "message",
            m.payload.getD Json.null,
            if jsTruthy m.correlationId then m.correlationId else Json.null,
            ts⟩, rfl, ?_⟩
          simp only [handleSend, hto]
          rw [if_neg hse, if_neg hlk, if_neg (by simp [hcan])]
        · refine Or.inl ⟨"route_not_allowed", by simp, ?_⟩
          simp only [handleSend, hto]
          rw [if_neg hse, if_neg hlk, if_pos (by simp [Bool.not_eq_true] at hcan ⊢; exact hcan)]
  | null => exact Or.inl ⟨"missing_to", by simp, by simp [handleSend, hto]⟩
  | bool b => exact Or.inl ⟨"missing_to", by simp, by simp [handleSend, hto]⟩
  | num n => exact Or.inl ⟨"missing_to", by simp, by simp [handleSend, hto]⟩
  | arr t => exact Or.inl ⟨"missing_to", by simp, by simp [handleSend, hto]⟩
  | obj t => exact Or.inl ⟨"missing_to", by simp, by simp [handleSend, hto]⟩

/-- Every `routeAdminSend` outcome is either an error or a routed envelope
whose `from` is the `asClient` string. -/
theorem routeAdminSend_shape (st : BridgeState) (body : AdminSendBody)
    (genId ts : String) :
    (∃ c, routeAdminSend st body genId ts
        = (st, AdminSendResult.err c, [])) ∨
    (∃ e, Json.str e.«from» = body.asClient ∧
      routeAdminSend st body genId ts
        = ((deliverEnvelope st e).1,
           AdminSendResult.ok e (deliverEnvelope st e).2.1,
           (deliverEnvelope st e).2.2)) := by
  by_cases h1 : ¬jsTruthy body.asClient ∨ ¬jsTruthy body.«to»
  · exact Or.inl ⟨"asClient_and_to_required", by simp only [routeAdminSend]; rw [if_pos h1]⟩
  · by_cases h2 : ¬hasClientJson st body.asClient ∨ ¬hasClientJson st body.«to»
    · refine Or.inl ⟨"unknown_client", ?_⟩
      simp only [routeAdminSend]
      rw [if_neg h1, if_pos h2]
    · push_neg at h2
      obtain ⟨ha, hb⟩ := h2
      cases hac : body.asClient with
      | str asClient =>
        cases htc : body.«to» with
        | str toId =>
          by_cases hcan : canRoute st asClient toId = true
          · refine Or.inr ⟨⟨if jsTruthy body.id then body.id else Json.str genId,
              asClient, toId,
              if jsTruthy body.type then body.type else Json.str "message",
              body.payload.getD Json.null,
              if jsTruthy body.correlationId then body.correlationId
              else Json.null, ts⟩, rfl, ?_⟩
            simp only [routeAdminSend]
            rw [if_neg h1, if_neg (by push_neg; exact ⟨ha, hb⟩)]
            simp only [hac, htc]
            rw [if_neg (by simp [hcan])]
          · refine Or.inl ⟨"route_not_allowed", ?_⟩
            simp only [routeAdminSend]
            rw [if_neg h1, if_neg (by push_neg; exact ⟨ha, hb⟩)]
            simp only [hac, htc]
            rw [if_pos (by simp [Bool.not_eq_true] at hcan ⊢; exact hcan)]
        | null => rw [htc] at hb; simp [hasClientJson] at hb
        | bool b => rw [htc] at hb; simp [hasClientJson] at hb
        | num n => rw [htc] at hb; simp [hasClientJson] at hb
        | arr t => rw [htc] at hb; simp [hasClientJson] at hb
        | obj t => rw [htc] at hb; simp [hasClientJson] at hb
      | null => rw [hac] at ha; simp [hasClientJson] at ha
      | bool b => rw [hac] at ha; simp [hasClientJson] at ha
      | num n => rw [hac] at ha; simp [hasClientJson] at ha
      | arr t => rw [hac] at ha; simp [hasClientJson] at ha
      | obj t => rw [hac] at ha; simp [hasClientJson] at ha

/-- C4: every `message` frame written (and every envelope enqueued) by the
socket `send` handler carries `from` = the authenticated client id of the
issuing connection, and every envelope routed by the HTTP admin send
carries `from` = the `asClient` value; neither is taken from any other
client-supplied field. -/
theorem envelope_from_is_server_assigned :
    (∀ (st : BridgeState) (senderId : String) (m : SendMsg) (genId ts : String)
       (w : Nat × Frame), w ∈ (handleSend st senderId m genId ts).2.2 →
       ∃ e, w.2 = Frame.message e ∧ e.«from» = senderId) ∧
    (∀ (st : BridgeState) (senderId : String) (m : SendMsg) (genId ts : String)
       (c : String) (e : Envelope),
       e ∈ getQueue (handleSend st senderId m genId ts).1 c →
       e ∈ getQueue st c ∨ e.«from» = senderId) ∧
    (∀ (st : BridgeState) (body : AdminSendBody) (genId ts : String)
       (e : Envelope) (r : RouteResult),
       (routeAdminSend st body genId ts).2.1 = AdminSendResult.ok e r →
       Json.str e.«from» = body.asClient) ∧
    (∀ (st : BridgeState) (body : AdminSendBody) (genId ts : String)
       (w : Nat × Frame), w ∈ (routeAdminSend st body genId ts).2.2 →
       ∃ e, w.2 = Frame.message e ∧ Json.str e.«from» = body.asClient) := by
  refine ⟨?_, ?_, ?_, ?_⟩
  · intro st senderId m genId ts w hw
    rcases handleSend_shape st senderId m genId ts with ⟨c, -, hc⟩ | ⟨e, he, hc⟩
    · rw [hc] at hw
      simp at hw
    · rw [hc] at hw
      exact ⟨e, deliverEnvelope_writes_mem st e w hw, he⟩
  · intro st senderId m genId ts c e hm
    rcases handleSend_shape st senderId m genId ts with ⟨c2, -, hc⟩ | ⟨e2, he, hc⟩
    · rw [hc] at hm
      exact Or.inl hm
    · rw [hc] at hm
      rcases deliverEnvelope_queue_mem st e2 c e hm with h1 | h1
      · exact Or.inl h1
      · subst h1
        exact Or.inr he
  · intro st body genId ts e r hr
    rcases routeAdminSend_shape st body genId ts with ⟨c, hc⟩ | ⟨e2, he, hc⟩
    · rw [hc] at hr
      cases hr
    · rw [hc] at hr
      cases hr
      exact he
  · intro st body genId ts w hw
    rcases routeAdminSend_shape st body genId ts with ⟨c, hc⟩ | ⟨e2, he, hc⟩
    · rw [hc] at hw
      simp at hw
    · rw [hc] at hw
      exact ⟨e2, deliverEnvelope_writes_mem st e2 w hw, he⟩

/-- The `send` frame of the C4 witness. -/
def c4msg : SendMsg :=
  ⟨Json.str "openclaw-server", Json.null, none, Json.null, Json.null⟩

/-- The envelope the C4 witness send produces. -/
def c4env : Envelope :=
  ⟨Json.str "g", "agent-client", "openclaw-server", Json.str "message",
   Json.null, Json.null, "t"⟩

/-- Witness for C4: the one delivery write of a concrete send carries an
envelope with `from` = the authenticated sender. -/
theorem envelope_from_witness :
    ∃ e, ((0, Frame.message c4env) : Nat × Frame).2 = Frame.message e ∧
      e.«from» = "agent-client" :=
  envelope_from_is_server_assigned.1 sampleStateLive "agent-client" c4msg
    "g" "t" (0, Frame.message c4env) (by decide)

theorem writesTo_append (conn : Nat) (l1 l2 : List (Nat × Frame)) :
    writesTo conn (l1 ++ l2) = writesTo conn l1 ++ writesTo conn l2 := by
  simp [writesTo, List.filter_append]

theorem writesTo_map_self (conn : Nat) (l : List Frame) :
    writesTo conn (l.map (fun f => (conn, f))) = l := by
  induction l with
  | nil => rfl
  | cons f rest ih => simp [writesTo, List.filter] at ih ⊢; exact ih

theorem writesTo_map_const (conn : Nat) (l : List Nat) (f : Frame) :
    writesTo conn (l.map (fun c => (c, f)))
      = List.replicate (l.count conn) f := by
  induction l with
  | nil => rfl
  | cons c rest ih =>
    by_cases hc : c = conn
    · subst hc
      have hstep : writesTo c ((c, f) :: rest.map (fun c2 => (c2, f)))
          = f :: writesTo c (rest.map (fun c2 => (c2, f))) := by
        simp [writesTo, List.filter_cons]
      rw [show (c :: rest).map (fun c2 => (c2, f))
            = (c, f) :: rest.map (fun c2 => (c2, f)) from rfl, hstep, ih]
      simp [List.count_cons, List.replicate_succ]
    · have hstep : writesTo conn ((c, f) :: rest.map (fun c2 => (c2, f)))
          = writesTo conn (rest.map (fun c2 => (c2, f))) := by
        simp [writesTo, List.filter_cons, hc]
      rw [show (c :: rest).map (fun c2 => (c2, f))
            = (c, f) :: rest.map (fun c2 => (c2, f)) from rfl, hstep, ih]
      simp [List.count_cons, hc]

theorem connsOf_deliverEnvelope (st : BridgeState) (e : Envelope)
    (c : String) : connsOf (deliverEnvelope st e).1 c = connsOf st c := by
  simp only [deliverEnvelope]
  split <;> rfl

theorem connsOf_flushQueue (st : BridgeState) (cid c : String) :
    connsOf (flushQueue st cid).1 c = connsOf st c := rfl

theorem writesTo_deliverEnvelope (st : BridgeState) (e : Envelope)
    (conn : Nat) :
    writesTo conn (deliverEnvelope st e).2.2
      = List.replicate ((connsOf st e.«to»).count conn) (Frame.message e) := by
  by_cases h : (connsOf st e.«to»).isEmpty = true
  · have hnil : connsOf st e.«to» = [] := by simpa [List.isEmpty_iff] using h
    simp [deliverEnvelope, h, hnil, writesTo]
  · simp only [deliverEnvelope, h, Bool.false_eq_true, if_false]
    exact writesTo_map_const conn _ _

/-- After authentication, the connection sees exactly the fresh deliveries
addressed to it, in order, as long as the connection-manager invariant
(registered exactly once for `r`, nowhere else) holds. -/
theorem sends_writes_after_auth (es : List Envelope) (st2 : BridgeState)
    (conn : Nat) (r : String)
    (h1 : (connsOf st2 r).count conn = 1)
    (h2 : ∀ c, c ≠ r → conn ∉ connsOf st2 c) :
    writesTo conn (runOpsW st2 (es.map Op.send)).2
      = (es.filter (fun e => e.«to» == r)).map Frame.message := by
  induction es generalizing st2 with
  | nil => rfl
  | cons e rest ih =>
    have hstep : writesTo conn (deliverEnvelope st2 e).2.2
        = if e.«to» = r then [Frame.message e] else [] := by
      rw [writesTo_deliverEnvelope]
      by_cases he : e.«to» = r
      · rw [he, h1]
        simp
      · have : conn ∉ connsOf st2 e.«to» := h2 e.«to» he
        rw [List.count_eq_zero_of_not_mem this]
        simp [he]
    show writesTo conn ((deliverEnvelope st2 e).2.2
        ++ (runOpsW (deliverEnvelope st2 e).1 (rest.map Op.send)).2) = _
    rw [writesTo_append, hstep,
      ih (deliverEnvelope st2 e).1
        (by rw [connsOf_deliverEnvelope]; exact h1)
        (fun c hc => by rw [connsOf_deliverEnvelope]; exact h2 c hc)]
    by_cases he : e.«to» = r
    · simp [List.filter_cons, he]
    · simp [List.filter_cons, he]

/-- C6: when a fresh connection authenticates as recipient `r`, it receives
`auth_ok` carrying the queue depth, then every envelope queued at that
moment in FIFO order, and only after those the envelopes routed to `r`
later, in routing order. -/
theorem drained_before_fresh_deliveries (st : BridgeState) (r : String)
    (conn : Nat) (ts : String) (es : List Envelope)
    (hfresh : ∀ c, conn ∉ connsOf st c) :
    writesTo conn (runOpsW st (Op.connect r conn ts :: es.map Op.send)).2
      = Frame.authOk r (getQueue st r).length ts
          :: (getQueue st r).map Frame.message
          ++ (es.filter (fun e => e.«to» == r)).map Frame.message := by
  have hnc : (connsOf st r).contains conn = false := by
    rw [Bool.eq_false_iff]
    intro hcont
    exact hfresh r (List.elem_iff.mp hcont)
  have hreg : connsOf (registerConnection st r conn) r
      = connsOf st r ++ [conn] := by
    show (lookupA (setA st.activeConnections r
        (if (connsOf st r).contains conn then connsOf st r
         else connsOf st r ++ [conn])) r).getD [] = connsOf st r ++ [conn]
    rw [lookupA_setA_self]
    simp [hfresh r]
  have hregne : ∀ c, c ≠ r →
      connsOf (registerConnection st r conn) c = connsOf st c := by
    intro c hc
    simp only [registerConnection, connsOf]
    rw [lookupA_setA_ne _ _ _ _ hc]
  have hq : getQueue (registerConnection st r conn) r = getQueue st r :=
    getQueue_registerConnection st r conn r
  show writesTo conn
      ((Frame.authOk r (getQueue (registerConnection st r conn) r).length ts
          :: (flushQueue (registerConnection st r conn) r).2.2).map
            (fun f => (conn, f))
        ++ (runOpsW (flushQueue (registerConnection st r conn) r).1
            (es.map Op.send)).2) = _
  rw [writesTo_append, writesTo_map_self]
  have hflush : (flushQueue (registerConnection st r conn) r).2.2
      = (getQueue st r).map Frame.message := by
    simp [flushQueue, hq]
  rw [hflush, hq]
  rw [sends_writes_after_auth es _ conn r
    (by
      rw [connsOf_flushQueue, hreg]
      rw [List.count_append]
      rw [List.count_eq_zero_of_not_mem (hfresh r)]
      simp)
    (by
      intro c hc
      rw [connsOf_flushQueue, hregne c hc]
      exact hfresh c)]

/-- State for the C6 witness: two envelopes already queued for
`openclaw-server`, nobody connected. -/
def c6state : BridgeState :=
  ⟨3, 100, sampleRegistry, [], [("openclaw-server", [qe 1, qe 2])]⟩

/-- Witness for C6: connection 5 authenticates as the queued recipient and
one more envelope is routed afterwards; the drained envelopes come first. -/
theorem drained_before_fresh_witness :
    writesTo 5 (runOpsW c6state
        (Op.connect "openclaw-server" 5 "T" :: [qe 3].map Op.send)).2
      = [Frame.authOk "openclaw-server" 2 "T", Frame.message (qe 1),
         Frame.message (qe 2), Frame.message (qe 3)] := by
  have h := drained_before_fresh_deliveries c6state "openclaw-server" 5 "T"
    [qe 3] (by intro c; simp [c6state, connsOf, lookupA])
  exact h.trans (by decide)

/-- No branch of the parsed-frame dispatcher ever answers with a
`message_too_large` error: that code is produced only by the size check in
front of it. -/
theorem handleParsed_no_message_too_large (digest : String → List Nat)
    (st : BridgeState) (conn : Nat) (cs : ConnState) (msg : Msg)
    (genId ts : String) :
    Frame.error "message_too_large"
      ∉ (handleParsed digest st conn cs msg genId ts).toSelf := by
  unfold handleParsed
  by_cases ha : cs.authed = true
  · rw [if_neg (show ¬¬cs.authed = true from by simp [ha])]
    cases msg with
    | auth clientIdJ apiKey => simp
    | ping => simp
    | send m =>
      rcases handleSend_shape st (cs.clientId.getD "") m genId ts with
        ⟨c, hcm, hc⟩ | ⟨e, -, hc⟩
      · show Frame.error "message_too_large"
          ∉ (handleSend st (cs.clientId.getD "") m genId ts).2.1
        rw [hc]
        simp only [List.mem_singleton]
        intro habs
        injection habs with he2
        simp only [List.mem_cons, List.not_mem_nil, or_false] at hcm
        rcases hcm with rfl | rfl | rfl <;> exact absurd he2 (by decide)
      · show Frame.error "message_too_large"
          ∉ (handleSend st (cs.clientId.getD "") m genId ts).2.1
        rw [hc]
        simp
    | whoami => simp
    | other => simp
  · rw [if_pos ha]
    cases msg with
    | auth clientIdJ apiKey =>
      cases hlk : clientJsonLookup st clientIdJ with
      | none => simp [hlk]
      | some clientDef =>
        by_cases hk :
            safeCompareHash digest apiKey (some clientDef.keySha256) = true
        · simp [hlk, hk, flushQueue]
        · simp [hlk, hk]
    | ping => simp
    | send m => simp
    | whoami => simp
    | other => simp

/-- C7: a frame whose serialized length is exactly `maxMessageBytes` passes
the size check and is handed to the parse-and-dispatch stage, which never
produces `message_too_large`; a frame one byte longer is answered with
exactly one `message_too_large` error frame, nothing else happening. -/
theorem frame_size_boundary (digest : String → List Nat) (st : BridgeState)
    (conn : Nat) (cs : ConnState) (line : Line) (genId ts : String) :
    (line.bytes = st.maxMessageBytes →
      handleLine digest st conn cs line genId ts
        = (match line.msg with
           | none => ⟨st, cs, [Frame.error "invalid_json"], [], false⟩
           | some msg => handleParsed digest st conn cs msg genId ts) ∧
      Frame.error "message_too_large"
        ∉ (handleLine digest st conn cs line genId ts).toSelf) ∧
    (line.bytes = st.maxMessageBytes + 1 →
      handleLine digest st conn cs line genId ts
        = ⟨st, cs, [Frame.error "message_too_large"], [], false⟩) := by
  constructor
  · intro hb
    have hle : ¬line.bytes > st.maxMessageBytes := by omega
    constructor
    · simp only [handleLine, hle, if_false]
    · simp only [handleLine, hle, if_false]
      cases hm : line.msg with
      | none => simp
      | some msg => exact handleParsed_no_message_too_large digest st conn cs msg genId ts
  · intro hb
    have hgt : line.bytes > st.maxMessageBytes := by omega
    simp only [handleLine, hgt, if_true]

/-- Witness for C7, with `maxMessageBytes = 8`: an 8-byte `ping` frame is
processed (answered with `pong`), a 9-byte frame is answered with
`message_too_large` only. -/
theorem frame_size_boundary_witness :
    handleLine (fun _ => []) ⟨3, 8, sampleRegistry, [], []⟩ 2
        ⟨true, some "agent-client"⟩ ⟨8, some Msg.ping⟩ "g" "T"
      = ⟨⟨3, 8, sampleRegistry, [], []⟩, ⟨true, some "agent-client"⟩,
         [Frame.pong "T"], [], false⟩ ∧
    handleLine (fun _ => []) ⟨3, 8, sampleRegistry, [], []⟩ 2
        ⟨true, some "agent-client"⟩ ⟨9, some Msg.ping⟩ "g" "T"
      = ⟨⟨3, 8, sampleRegistry, [], []⟩, ⟨true, some "agent-client"⟩,
         [Frame.error "message_too_large"], [], false⟩ := by
  constructor
  · have h := (frame_size_boundary (fun _ => []) ⟨3, 8, sampleRegistry, [], []⟩
      2 ⟨true, some "agent-client"⟩ ⟨8, some Msg.ping⟩ "g" "T").1 (by decide)
    exact h.1.trans (by decide)
  · exact (frame_size_boundary (fun _ => []) ⟨3, 8, sampleRegistry, [], []⟩
      2 ⟨true, some "agent-client"⟩ ⟨9, some Msg.ping⟩ "g" "T").2 (by decide)

/-- State for the C8 scenario: `maxMessageBytes = 8`, connection 2 already
authenticated as `agent-client`. -/
def c8state : BridgeState :=
  ⟨3, 8, sampleRegistry, [("agent-client", [2])], []⟩

/-- Counterexample to C8: a 9-byte (oversized) frame followed by a 4-byte
`ping` on the same connection. The connection is not destroyed and the
`ping` is still answered, so an oversized frame does not terminate the
connection. -/
theorem oversized_frame_counterexample :
    (handleLines (fun _ => []) c8state 2 ⟨true, some "agent-client"⟩
        (fun _ => "g") 0 "T"
        [⟨9, some Msg.ping⟩, ⟨4, some Msg.ping⟩]).destroyed = false ∧
    (handleLines (fun _ => []) c8state 2 ⟨true, some "agent-client"⟩
        (fun _ => "g") 0 "T"
        [⟨9, some Msg.ping⟩, ⟨4, some Msg.ping⟩]).toSelf
      = [Frame.error "message_too_large", Frame.pong "T"] := by
  constructor <;> decide

/-- C8 (amended): an oversized frame is answered with `message_too_large`
and the connection stays open, the remaining buffered frames being
processed as if the oversized one had not arrived; the connection is
destroyed (with `buffer_exceeded`) only when the accumulated buffer exceeds
twice `maxMessageBytes`. -/
theorem oversized_frame_keeps_connection (digest : String → List Nat)
    (st : BridgeState) (conn : Nat) (cs : ConnState) (gen : Nat → String)
    (k : Nat) (ts : String) (line : Line) (rest : List Line)
    (bufferBytes : Nat) (lines : List Line)
    (hoversized : line.bytes > st.maxMessageBytes)
    (hbuf : bufferBytes > st.maxMessageBytes * 2) :
    handleLines digest st conn cs gen k ts (line :: rest)
      = ⟨(handleLines digest st conn cs gen (k + 1) ts rest).st,
         (handleLines digest st conn cs gen (k + 1) ts rest).cs,
         Frame.error "message_too_large"
           :: (handleLines digest st conn cs gen (k + 1) ts rest).toSelf,
         (handleLines digest st conn cs gen (k + 1) ts rest).toOthers,
         (handleLines digest st conn cs gen (k + 1) ts rest).destroyed⟩ ∧
    dataEvent digest st conn cs bufferBytes lines gen ts
      = ⟨st, cs, [Frame.error "buffer_exceeded"], [], true⟩ := by
  constructor
  · show (let r := handleLine digest st conn cs line (gen k) ts
        if r.destroyed then r
        else
          let r2 := handleLines digest r.st conn r.cs gen (k + 1) ts rest
          ⟨r2.st, r2.cs, r.toSelf ++ r2.toSelf, r.toOthers ++ r2.toOthers,
           r2.destroyed⟩) = _
    have hline : handleLine digest st conn cs line (gen k) ts
        = ⟨st, cs, [Frame.error "message_too_large"], [], false⟩ := by
      simp only [handleLine, hoversized, if_true]
    rw [hline]
    simp
  · simp only [dataEvent, hbuf, if_true]

/-- Witness for C8 (amended), at `maxMessageBytes = 8`: a 9-byte frame
keeps the connection alive and a 17-byte buffer destroys it. -/
theorem oversized_frame_keeps_connection_witness :
    handleLines (fun _ => []) c8state 2 ⟨true, some "agent-client"⟩
        (fun _ => "g") 0 "T" [⟨9, some Msg.ping⟩, ⟨4, some Msg.ping⟩]
      = ⟨c8state, ⟨true, some "agent-client"⟩,
         [Frame.error "message_too_large", Frame.pong "T"], [], false⟩ ∧
    dataEvent (fun _ => []) c8state 2 ⟨true, some "agent-client"⟩ 17
        [⟨9, some Msg.ping⟩, ⟨4, some Msg.ping⟩] (fun _ => "g") "T"
      = ⟨c8state, ⟨true, some "agent-client"⟩,
         [Frame.error "buffer_exceeded"], [], true⟩ := by
  have h := oversized_frame_keeps_connection (fun _ => []) c8state 2
    ⟨true, some "agent-client"⟩ (fun _ => "g") 0 "T" ⟨9, some Msg.ping⟩
    [⟨4, some Msg.ping⟩] 17 [⟨9, some Msg.ping⟩, ⟨4, some Msg.ping⟩]
    (by decide) (by decide)
  exact ⟨h.1.trans (by decide), h.2⟩

/-- Counterexample to C5: `/api/mission-control/avatar` lies under `/api/`
but is matched before the authorization gate, so with no admin hash
configured and no token supplied the answer is `id_required` (or the
avatar), not `unauthorized`. -/
theorem api_avatar_bypasses_auth :
    startsWithS "/api/mission-control/avatar" "/api/" = true ∧
    httpRoute (fun _ => []) none
        ⟨"/api/mission-control/avatar", "GET", none, none⟩
      = HttpResp.badRequest "id_required" ∧
    httpRoute (fun _ => []) none
        ⟨"/api/mission-control/avatar", "GET", none, none⟩
      ≠ HttpResp.unauthorized := by
  refine ⟨by decide, by decide, by decide⟩

/-- C5 (amended): every `/api/` path other than
`/api/mission-control/avatar` is answered `unauthorized` whenever the
`x-bridge-token` gate fails, and with no configured admin token hash the
gate fails for every token, so all those API calls are rejected. -/
theorem api_requires_token_except_avatar (digest : String → List Nat)
    (adminTokenSha256 : Option String) (req : HttpReq)
    (hapi : startsWithS req.pathname "/api/" = true)
    (havatar : req.pathname ≠ "/api/mission-control/avatar")
    (hauth : isAuthorizedHttp digest adminTokenSha256 req.token = false) :
    httpRoute digest adminTokenSha256 req = HttpResp.unauthorized ∧
    (∀ (digest2 : String → List Nat) (token : Option String),
      isAuthorizedHttp digest2 none token = false) := by
  have hne : ∀ p : String, startsWithS p "/api/" = false →
      req.pathname ≠ p := by
    intro p hp he
    rw [he, hp] at hapi
    cases hapi
  constructor
  · unfold httpRoute
    rw [if_neg (hne "/health" (by decide)),
        if_neg (hne "/" (by decide)),
        if_neg (hne "/panel/mission-control.css" (by decide)),
        if_neg (hne "/panel/mission-control.js" (by decide)),
        if_neg (hne "/panel/voice.js" (by decide)),
        if_neg (hne "/favicon.ico" (by decide)),
        if_neg havatar,
        if_neg (show ¬¬startsWithS req.pathname "/api/" = true from by
          simp [hapi]),
        if_pos (show ¬isAuthorizedHttp digest adminTokenSha256 req.token
            = true from by simp [hauth])]
  · intro digest2 token
    rfl

/-- Witness for C5 (amended): `/api/status` without a token and without a
configured admin hash is `unauthorized`. -/
theorem api_requires_token_witness :
    httpRoute (fun _ => []) none ⟨"/api/status", "GET", none, none⟩
      = HttpResp.unauthorized :=
  (api_requires_token_except_avatar (fun _ => []) none
    ⟨"/api/status", "GET", none, none⟩ (by decide) (by decide) rfl).1

theorem validateClients_ok_iff (cs : List RawClient) (seen : List String) :
    isOkE (validateClients cs seen) = true ↔
      ((∀ c ∈ cs, c.id ≠ "" ∧ c.keySha256 ≠ "") ∧
       (cs.map RawClient.id).Nodup ∧
       (∀ c ∈ cs, c.id ∉ seen)) := by
  induction cs generalizing seen with
  | nil => simp [validateClients, isOkE]
  | cons c rest ih =>
    by_cases h1 : c.id = "" ∨ c.keySha256 = ""
    · rw [show validateClients (c :: rest) seen
          = Except.error "each client requires id and keySha256" from by
        unfold validateClients; rw [if_pos h1]]
      constructor
      · intro h
        simp [isOkE] at h
      · rintro ⟨hall, -, -⟩
        have := hall c (List.mem_cons_self _ _)
        rcases h1 with h1 | h1 <;> simp_all
    · by_cases h2 : seen.contains c.id = true
      · rw [show validateClients (c :: rest) seen
            = Except.error "duplicate client id" from by
          unfold validateClients; rw [if_neg h1, if_pos h2]]
        constructor
        · intro h
          simp [isOkE] at h
        · rintro ⟨-, -, hns⟩
          exact absurd (List.elem_iff.mp h2) (hns c (List.mem_cons_self _ _))
      · have h2m : c.id ∉ seen := fun hm => h2 (List.elem_iff.mpr hm)
        push_neg at h1
        obtain ⟨h1a, h1b⟩ := h1
        have hstep : validateClients (c :: rest) seen
            = match validateClients rest (c.id :: seen) with
              | Except.error e => Except.error e
              | Except.ok cs2 =>
                Except.ok (⟨c.id, c.keySha256, c.canSendTo.getD []⟩ :: cs2) := by
          show (if c.id = "" ∨ c.keySha256 = "" then
                  Except.error "each client requires id and keySha256"
                else if seen.contains c.id then
                  Except.error "duplicate client id"
                else
                  match validateClients rest (c.id :: seen) with
                  | Except.error e => Except.error e
                  | Except.ok cs2 =>
                    Except.ok (⟨c.id, c.keySha256, c.canSendTo.getD []⟩
                      :: cs2)) = _
          rw [if_neg (by push_neg; exact ⟨h1a, h1b⟩), if_neg h2]
        have hmatch : isOkE (validateClients (c :: rest) seen)
            = isOkE (validateClients rest (c.id :: seen)) := by
          rw [hstep]
          cases validateClients rest (c.id :: seen) <;> rfl
        rw [hmatch, ih]
        constructor
        · rintro ⟨hall, hnd, hnin⟩
          refine ⟨?_, ?_, ?_⟩
          · intro c2 hc2
            rcases List.mem_cons.mp hc2 with rfl | hc2
            · exact ⟨h1a, h1b⟩
            · exact hall c2 hc2
          · rw [List.map_cons, List.nodup_cons]
            refine ⟨?_, hnd⟩
            intro hmem
            obtain ⟨c2, hc2, hid⟩ := List.mem_map.mp hmem
            exact (hnin c2 hc2) (by rw [hid]; exact List.mem_cons_self _ _)
          · intro c2 hc2
            rcases List.mem_cons.mp hc2 with rfl | hc2
            · exact h2m
            · intro hmem
              exact (hnin c2 hc2) (List.mem_cons_of_mem _ hmem)
        · rintro ⟨hall, hnd, hnin⟩
          rw [List.map_cons, List.nodup_cons] at hnd
          refine ⟨?_, hnd.2, ?_⟩
          · intro c2 hc2
            exact hall c2 (List.mem_cons_of_mem _ hc2)
          · intro c2 hc2 hmem
            rcases List.mem_cons.mp hmem with h3 | h3
            · exact hnd.1 (List.mem_map.mpr ⟨c2, hc2, h3⟩)
            · exact (hnin c2 (List.mem_cons_of_mem _ hc2)) h3

/-- Counterexample to C9: a client entry whose destination allowlist is not
an array does not make config loading fail; the loader replaces it by the
empty list and succeeds. -/
theorem loadConfig_nonarray_allowlist_counterexample :
    (⟨"a", "ff", none⟩ : RawClient).canSendTo = none ∧
    loadConfig true (some ⟨some [⟨"a", "ff", none⟩]⟩)
      = Except.ok [⟨"a", "ff", []⟩] :=
  ⟨rfl, rfl⟩

/-- C9 (amended): config loading succeeds iff the file exists, the JSON
parses, `clients` is a non-empty array, every client carries an id and a
key hash, and ids are unique. A non-array destination allowlist is not
fatal: it is silently replaced by the empty array. -/
theorem loadConfig_ok_iff (configExists : Bool) (parsed : Option RawConfig) :
    isOkE (loadConfig configExists parsed) = true ↔
      (configExists = true ∧
       ∃ rc cs, parsed = some rc ∧ rc.clients = some cs ∧ cs ≠ [] ∧
         (∀ c ∈ cs, c.id ≠ "" ∧ c.keySha256 ≠ "") ∧
         (cs.map RawClient.id).Nodup) := by
  cases configExists with
  | false => simp [loadConfig, isOkE]
  | true =>
    cases parsed with
    | none => simp [loadConfig, isOkE]
    | some rc =>
      cases hc : rc.clients with
      | none => simp [loadConfig, isOkE, hc]
      | some cs =>
        cases cs with
        | nil => simp [loadConfig, isOkE, hc]
        | cons c rest =>
          rw [show loadConfig true (some rc)
              = validateClients (c :: rest) [] from by
            show (match rc.clients with
                  | none => Except.error
                      "config.clients must contain at least one client"
                  | some [] => Except.error
                      "config.clients must contain at least one client"
                  | some cs => validateClients cs [])
                = validateClients (c :: rest) []
            rw [hc]]
          rw [validateClients_ok_iff]
          simp [hc]

/-- Witness for C9 (amended): a well-formed single-client config loads. -/
theorem loadConfig_ok_witness :
    isOkE (loadConfig true (some ⟨some [⟨"a", "ff", some ["*"]⟩]⟩)) = true :=
  (loadConfig_ok_iff true (some ⟨some [⟨"a", "ff", some ["*"]⟩]⟩)).mpr
    ⟨rfl, ⟨some [⟨"a", "ff", some ["*"]⟩]⟩, [⟨"a", "ff", some ["*"]⟩],
     rfl, rfl, by decide, by decide, by decide⟩

theorem hexDigitVal_hexChars (d : Nat) (hd : d < 16) :
    hexDigitVal (hexChars.getD d '0') = some d := by
  interval_cases d <;> decide

theorem hexDecodeL_byteToHex (b : Nat) (hb : b < 256) (rest : List Char) :
    hexDecodeL (byteToHex b ++ rest) = b :: hexDecodeL rest := by
  show (match hexDigitVal (hexChars.getD (b / 16) '0'),
        hexDigitVal (hexChars.getD (b % 16) '0') with
    | some hi, some lo => (16 * hi + lo) :: hexDecodeL rest
    | _, _ => []) = b :: hexDecodeL rest
  rw [hexDigitVal_hexChars (b / 16) (by omega),
      hexDigitVal_hexChars (b % 16) (by omega)]
  show (16 * (b / 16) + b % 16) :: hexDecodeL rest = b :: hexDecodeL rest
  rw [Nat.div_add_mod b 16]

theorem hexDecode_hexEncode (bs : List Nat) (hb : ∀ b ∈ bs, b < 256) :
    hexDecode (hexEncode bs) = bs := by
  induction bs with
  | nil => rfl
  | cons b rest ih =>
    show hexDecodeL (byteToHex b ++ rest.flatMap byteToHex) = b :: rest
    rw [hexDecodeL_byteToHex b (hb b (List.mem_cons_self _ _))]
    rw [show hexDecodeL (rest.flatMap byteToHex) = hexDecode (hexEncode rest)
      from rfl]
    rw [ih (fun b2 hb2 => hb b2 (List.mem_cons_of_mem _ hb2))]

/-- C10: the hash comparison is total and fails closed. For any digest
function producing 32 bytes, if the stored hash string does not hex-decode
to exactly 32 bytes (malformed, truncated, non-hex, or empty), then
`safeCompareHash` returns `false` (no exception is possible: the length
check guards `timingSafeEqual`), so socket auth answers `auth_failed` and
the HTTP gate rejects, for every supplied key or token. -/
theorem safeCompareHash_fails_closed (digest : String → List Nat)
    (plain expectedHash : String)
    (hdig : ∀ s, (digest s).length = 32 ∧ ∀ b ∈ digest s, b < 256)
    (hmal : (hexDecode expectedHash).length ≠ 32) :
    safeCompareHash digest plain (some expectedHash) = false ∧
    (∀ (st : BridgeState) (conn : Nat) (cidJ : Json) (cdef : ClientDef)
       (genId ts : String),
      clientJsonLookup st cidJ = some cdef →
      (hexDecode cdef.keySha256).length ≠ 32 →
      handleParsed digest st conn ⟨false, none⟩ (Msg.auth cidJ plain) genId ts
        = ⟨st, ⟨false, none⟩, [Frame.authFailed], [], true⟩) ∧
    (∀ h t, (hexDecode h).length ≠ 32 →
      isAuthorizedHttp digest (some h) (some t) = false) := by
  have hfail : ∀ (p eh : String), (hexDecode eh).length ≠ 32 →
      safeCompareHash digest p (some eh) = false := by
    intro p eh hm
    show (if (hexDecode (sha256 digest p)).length
        ≠ (hexDecode ((some eh).getD "")).length then false
      else hexDecode (sha256 digest p) == hexDecode ((some eh).getD ""))
        = false
    rw [show sha256 digest p = hexEncode (digest p) from rfl,
        hexDecode_hexEncode (digest p) (hdig p).2]
    rw [if_pos]
    rw [(hdig p).1]
    show (32 : Nat) ≠ (hexDecode eh).length
    omega
  refine ⟨hfail plain expectedHash hmal, ?_, ?_⟩
  · intro st conn cidJ cdef genId ts hlk hm
    have hcmp := hfail plain cdef.keySha256 hm
    unfold handleParsed
    simp [hlk, hcmp]
  · intro h t hm
    unfold isAuthorizedHttp
    by_cases he : h = ""
    · simp [he]
    · simp [he, hfail t h hm]

/-- Witness for C10 at a stored hash `"zz"` (hex-decodes to zero bytes)
and the constant zero digest. -/
theorem safeCompareHash_fails_closed_witness :
    safeCompareHash (fun _ => List.replicate 32 0) "pw" (some "zz")
      = false :=
  (safeCompareHash_fails_closed (fun _ => List.replicate 32 0) "pw" "zz"
    (fun s => ⟨by simp, fun b hb => by
      rw [List.eq_of_mem_replicate hb]; omega⟩)
    (by decide)).1

end Bridge
